import Mathlib

/-!
# Verification of `src/compiler.py`

Shallow embedding of the tokenizer, recursive-descent parser and the four
symbol-table variants of `compiler.py`, together with proofs of the spec's
claims about them.

Conventions of the embedding:
* Python strings are `List Char` inside the lexer (the scanner walks the
  text character by character) and `String` elsewhere.
* Python character classes: `[a-zA-Z_]` is `Char.isAlpha`/underscore,
  `\d` is `Char.isDigit` (ASCII digits), `.` is any char except newline.
* The `while pos < len(code)` loop of `Lexer.tokenize` is realized with an
  explicit fuel argument equal to the number of remaining characters; each
  loop iteration consumes at least one character (proved below), so this
  fuel is always sufficient.
* Python exceptions are `Except`/`Option` results: `PErr.synError` models a
  `SyntaxError`, `PErr.typeError` models the `TypeError` Python raises when
  subscripting `None`, and `Option.none` in the hash table models the
  `ZeroDivisionError`/`IndexError` paths.
-/

namespace PySC

namespace Lexer

/-- The `"` character (written numerically to keep it out of the text). -/
def quoteChar : Char := Char.ofNat 34

/-- First character of the `[a-zA-Z_][a-zA-Z0-9_]*` identifier pattern. -/
def isIdentStart (c : Char) : Bool := c.isAlpha || c = '_'

/-- Continuation characters `[a-zA-Z0-9_]` of the identifier pattern. -/
def isIdentChar (c : Char) : Bool := c.isAlpha || c.isDigit || c = '_'

/-- The character class `[-+*/=(),]` of the `OPERATOR` rule. -/
def opChars : List Char := ['-', '+', '*', '/', '=', '(', ')', ',']

/--
One attempt of the pattern loop of `Lexer.tokenize` at the current position:
the rules `IDENTIFIER`, `NUMBER`, `OPERATOR`, `STRING`, `COMMENT` are tried
in this order, anchored at the cursor (`re.match`), and the first rule that
matches wins.  The result is the rule name, the matched text and the rest of
the input; `none` means no rule matched.  The rules' start characters are
pairwise disjoint, so the ordered alternation collapses to a dispatch on the
first character; only the `STRING` rule can still fail after its start
character matched (no closing quote), in which case no later rule matches.
`*`/`+` in the patterns are greedy, hence `takeWhile`/`dropWhile`.
-/
def matchAt : List Char → Option (String × List Char × List Char)
  | [] => none
  | c :: rest =>
    if isIdentStart c then
      some ("IDENTIFIER", c :: rest.takeWhile isIdentChar, rest.dropWhile isIdentChar)
    else if c.isDigit then
      some ("NUMBER", c :: rest.takeWhile Char.isDigit, rest.dropWhile Char.isDigit)
    else if opChars.contains c then
      some ("OPERATOR", [c], rest)
    else if c = quoteChar then
      match rest.dropWhile (fun d => d != quoteChar) with
      | [] => none
      | q :: rest' =>
        some ("STRING", c :: rest.takeWhile (fun d => d != quoteChar) ++ [q], rest')
    else if c = '#' then
      some ("COMMENT", c :: rest.takeWhile (fun d => d != '\n'),
            rest.dropWhile (fun d => d != '\n'))
    else none

/--
The scan loop of `Lexer.tokenize`, instrumented to keep every matched span
(comments included).  `fuel` bounds the number of iterations; since every
iteration consumes at least one character, `fuel = length of the input`
makes the `0, _ :: _` case unreachable (see `scanAllF_concat`).
-/
def scanAllF : Nat → List Char → List (String × List Char)
  | _, [] => []
  | 0, _ :: _ => []
  | fuel + 1, c :: rest =>
    match matchAt (c :: rest) with
    | some (k, txt, rest') => (k, txt) :: scanAllF fuel rest'
    | none => ("INVALID", [c]) :: scanAllF fuel rest

/--
The scan loop of `Lexer.tokenize` exactly as in the source: a matched
`COMMENT` span is consumed but appended to the token list only when the
rule is not `COMMENT`; an unmatched character becomes a single-character
`INVALID` token and the cursor advances by one.
-/
def tokenizeF : Nat → List Char → List (String × List Char)
  | _, [] => []
  | 0, _ :: _ => []
  | fuel + 1, c :: rest =>
    match matchAt (c :: rest) with
    | some (k, txt, rest') =>
      if k = "COMMENT" then tokenizeF fuel rest'
      else (k, txt) :: tokenizeF fuel rest'
    | none => ("INVALID", [c]) :: tokenizeF fuel rest

/-- All spans matched while scanning `code`, comments included. -/
def scanAll (code : List Char) : List (String × List Char) :=
  scanAllF code.length code

/-- `Lexer.tokenize` of the source: the emitted token sequence. -/
def tokenize (code : List Char) : List (String × List Char) :=
  tokenizeF code.length code

end Lexer

/-- A token as the parser sees it: the `(token_type, value)` pair. -/
abbrev Token := String × String

/-- Lexer tokens converted to the `(type, value)` string pairs fed to `Parser`. -/
def lexTokens (code : String) : List Token :=
  (Lexer.tokenize code.data).map (fun t => (t.1, String.mk t.2))

/--
Values produced by `factor`/`term`/`expr`.  Python has no AST type: the
functions return tuples `('number', v)`, `('identifier', v)`, `('string', v)`,
`('binop', op, l, r)` — or fall through and return `None` (the missing `else`
branch of `factor`), which `pynone` models.
-/
inductive PyAst where
  | pynone
  | number (s : String)
  | identifier (s : String)
  | str (s : String)
  | binop (op : String) (l r : PyAst)
deriving DecidableEq, Repr

/--
Failure modes of the parser.  `synError expected actual` models
`raise SyntaxError(f"Expected {token_type}, got {current_token[0]}")`;
`typeError` models the `TypeError` Python raises when `current_token[0]`
is evaluated while `current_token` is `None`; `outOfFuel` corresponds to
nothing in the source and is unreachable for sufficient fuel.
-/
inductive PErr where
  | synError (expected actual : String)
  | typeError
  | outOfFuel
deriving DecidableEq, Repr

namespace Parser

/--
`Parser.eat`: the parser state is the token list plus the cursor
`token_index`; `current_token` is `tokens[i]` when in range, else `None`
(`advance`).  On success the new cursor is returned.  When the kinds
mismatch, the `SyntaxError` message carries the expected kind and the
actual kind `current_token[0]`; when `current_token` is `None`, evaluating
`current_token[0]` inside the f-string raises `TypeError` before the
`SyntaxError` is constructed.
-/
def eat (ts : List Token) (i : Nat) (tokenType : String) : Except PErr Nat :=
  match ts[i]? with
  | some tok => if tok.1 = tokenType then .ok (i + 1) else .error (.synError tokenType tok.1)
  | none => .error .typeError

mutual

/--
`Parser.factor`: dispatches on `current_token[0]` over `'NUMBER'`,
`'IDENTIFIER'`, `'STRING'`, `'('`; with `current_token = None` the subscript
raises `TypeError`; with any other kind the Python function falls off the
end and returns `None` (`pynone`), consuming nothing.
-/
def factor (ts : List Token) (i : Nat) (fuel : Nat) : Except PErr (PyAst × Nat) :=
  match fuel with
  | 0 => .error .outOfFuel
  | fuel + 1 =>
    match ts[i]? with
    | none => .error .typeError
    | some tok =>
      if tok.1 = "NUMBER" then do
        let i' ← eat ts i "NUMBER"
        .ok (.number tok.2, i')
      else if tok.1 = "IDENTIFIER" then do
        let i' ← eat ts i "IDENTIFIER"
        .ok (.identifier tok.2, i')
      else if tok.1 = "STRING" then do
        let i' ← eat ts i "STRING"
        .ok (.str tok.2, i')
      else if tok.1 = "(" then do
        let i' ← eat ts i "("
        let (node, i'') ← expr ts i' fuel
        let i''' ← eat ts i'' ")"
        .ok (node, i''')
      else
        .ok (.pynone, i)
termination_by structural fuel

/-- The `while current_token and current_token[0] in ('*','/')` loop of `term`. -/
def termLoop (ts : List Token) (node : PyAst) (i : Nat) (fuel : Nat) :
    Except PErr (PyAst × Nat) :=
  match fuel with
  | 0 => .error .outOfFuel
  | fuel + 1 =>
    match ts[i]? with
    | none => .ok (node, i)
    | some tok =>
      if tok.1 = "*" then do
        let (rhs, i') ← factor ts (i + 1) fuel
        termLoop ts (.binop "mul" node rhs) i' fuel
      else if tok.1 = "/" then do
        let (rhs, i') ← factor ts (i + 1) fuel
        termLoop ts (.binop "div" node rhs) i' fuel
      else
        .ok (node, i)
termination_by structural fuel

/-- `Parser.term`: one `factor`, then left-folding `*`/`/` into `mul`/`div`. -/
def term (ts : List Token) (i : Nat) (fuel : Nat) : Except PErr (PyAst × Nat) :=
  match fuel with
  | 0 => .error .outOfFuel
  | fuel + 1 => do
    let (node, i') ← factor ts i fuel
    termLoop ts node i' fuel
termination_by structural fuel

/-- The `while current_token and current_token[0] in ('+','-')` loop of `expr`. -/
def exprLoop (ts : List Token) (node : PyAst) (i : Nat) (fuel : Nat) :
    Except PErr (PyAst × Nat) :=
  match fuel with
  | 0 => .error .outOfFuel
  | fuel + 1 =>
    match ts[i]? with
    | none => .ok (node, i)
    | some tok =>
      if tok.1 = "+" then do
        let (rhs, i') ← term ts (i + 1) fuel
        exprLoop ts (.binop "add" node rhs) i' fuel
      else if tok.1 = "-" then do
        let (rhs, i') ← term ts (i + 1) fuel
        exprLoop ts (.binop "sub" node rhs) i' fuel
      else
        .ok (node, i)
termination_by structural fuel

/-- `Parser.expr`: one `term`, then left-folding `+`/`-` into `add`/`sub`. -/
def expr (ts : List Token) (i : Nat) (fuel : Nat) : Except PErr (PyAst × Nat) :=
  match fuel with
  | 0 => .error .outOfFuel
  | fuel + 1 => do
    let (node, i') ← term ts i fuel
    exprLoop ts node i' fuel
termination_by structural fuel

end

end Parser

/-- First-match scan of an association list, as in the `for symbol in
self.symbols` loop of `OrderedSymbolTable.get_symbol` (and the bucket scan
of `HashSymbolTable.get_symbol`): the first pair whose key equals `name`
wins. -/
def lookupFirst {V : Type} : List (String × V) → String → Option V
  | [], _ => none
  | (n, v) :: rest, name => if n = name then some v else lookupFirst rest name

/-- `OrderedSymbolTable`: backing store is the Python list `self.symbols`. -/
structure OrderedSymbolTable (V : Type) where
  symbols : List (String × V)
deriving DecidableEq

namespace OrderedSymbolTable

/-- `add_symbol`: `self.symbols.append((name, value))` — always appends. -/
def add_symbol {V : Type} (t : OrderedSymbolTable V) (name : String) (value : V) :
    OrderedSymbolTable V :=
  ⟨t.symbols ++ [(name, value)]⟩

/-- `get_symbol`: linear scan returning the first matching pair's value. -/
def get_symbol {V : Type} (t : OrderedSymbolTable V) (name : String) : Option V :=
  lookupFirst t.symbols name

end OrderedSymbolTable

/--
Update-or-append on an association list.  This is the observable behavior of
a CPython `dict` assignment `self.symbols[name] = value` (insertion order
kept, value updated in place), used to model `UnorderedSymbolTable`'s
backing `dict`.
-/
def dictInsert {V : Type} : List (String × V) → String → V → List (String × V)
  | [], name, value => [(name, value)]
  | (n, v) :: rest, name, value =>
    if n = name then (name, value) :: rest else (n, v) :: dictInsert rest name value

/-- `UnorderedSymbolTable`: the Python `dict` modelled as an
insertion-ordered association list with update-in-place assignment. -/
structure UnorderedSymbolTable (V : Type) where
  symbols : List (String × V)
deriving DecidableEq

namespace UnorderedSymbolTable

/-- `add_symbol`: `self.symbols[name] = value`. -/
def add_symbol {V : Type} (t : UnorderedSymbolTable V) (name : String) (value : V) :
    UnorderedSymbolTable V :=
  ⟨dictInsert t.symbols name value⟩

/-- `get_symbol`: `self.symbols.get(name, None)`. -/
def get_symbol {V : Type} (t : UnorderedSymbolTable V) (name : String) : Option V :=
  lookupFirst t.symbols name

end UnorderedSymbolTable

/-- Lexicographic comparison of character lists by code point: the `<` of
Python strings, used by the tree-structured table's key comparisons. -/
def strLtChars : List Char → List Char → Bool
  | [], [] => false
  | [], _ :: _ => true
  | _ :: _, [] => false
  | a :: as, b :: bs => if a < b then true else if b < a then false else strLtChars as bs

/-- `name < node.name` on Python strings. -/
def strLt (a b : String) : Bool := strLtChars a.data b.data

/-- `TreeNode`: `name`/`value` plus `left`/`right` children; `nil` is the
Python `None` child. -/
inductive Tree (V : Type) where
  | nil
  | node (name : String) (value : V) (left right : Tree V)
deriving DecidableEq

namespace Tree

/--
`_add_symbol_recursively` (with the root-creation case of `add_symbol`
folded in, since recursing into an empty child creates the same leaf):
strictly smaller keys go left, strictly greater keys go right, and an equal
key falls through the `if`/`elif` with no `else` — the tree is returned
unchanged.
-/
def add {V : Type} (t : Tree V) (name : String) (value : V) : Tree V :=
  match t with
  | .nil => .node name value .nil .nil
  | .node n v l r =>
    if strLt name n then .node n v (l.add name value) r
    else if strLt n name then .node n v l (r.add name value)
    else .node n v l r

/-- `_get_symbol_recursively`: standard BST descent. -/
def get {V : Type} (t : Tree V) (name : String) : Option V :=
  match t with
  | .nil => none
  | .node n v l r =>
    if name = n then some v
    else if strLt name n then l.get name
    else r.get name

end Tree

/-- `TreeStructuredSymbolTable`: holds the root (`None` initially). -/
structure TreeStructuredSymbolTable (V : Type) where
  root : Tree V
deriving DecidableEq

namespace TreeStructuredSymbolTable

/-- `add_symbol`: create the root if absent, else insert recursively. -/
def add_symbol {V : Type} (t : TreeStructuredSymbolTable V) (name : String) (value : V) :
    TreeStructuredSymbolTable V :=
  ⟨t.root.add name value⟩

/-- `get_symbol`: recursive lookup from the root. -/
def get_symbol {V : Type} (t : TreeStructuredSymbolTable V) (name : String) : Option V :=
  t.root.get name

end TreeStructuredSymbolTable

/--
The bucket-update loop of `HashSymbolTable.add_symbol`: scan the bucket for
an existing pair with the same name, replacing it in place
(`self.table[index][i] = (name, value)`), else append.
-/
def updateBucket {V : Type} : List (String × V) → String → V → List (String × V)
  | [], name, value => [(name, value)]
  | (n, v) :: rest, name, value =>
    if n = name then (name, value) :: rest else (n, v) :: updateBucket rest name value

/-- `HashSymbolTable`: `self.size` buckets, `self.table = [None] * size`.
A bucket is `none` until first used, then `some` of a pair list. -/
structure HashSymbolTable (V : Type) where
  size : Nat
  table : List (Option (List (String × V)))
deriving DecidableEq

namespace HashSymbolTable

/-- `__init__(size)`. -/
def ofSize {V : Type} (size : Nat) : HashSymbolTable V :=
  ⟨size, List.replicate size none⟩

/--
`hash_function`: `hash(key) % self.size`.  Python's built-in `hash` is an
arbitrary deterministic integer-valued function, passed here as the
parameter `hf` (the spec: "any deterministic string hash reduced modulo
bucket count").  `%` on a negative hash with a positive modulus yields a
value in `[0, size)` in Python, which is `Int.emod`.  With `size = 0` the
modulo raises `ZeroDivisionError`, modelled as `none`.
-/
def hash_function {V : Type} (hf : String → Int) (t : HashSymbolTable V) (key : String) :
    Option Nat :=
  if t.size = 0 then none else some ((hf key % (t.size : Int)).toNat)

/--
`add_symbol`: hash to a bucket index; a falsy bucket (`None`, or an empty
list) is replaced by `[(name, value)]`, otherwise the bucket is scanned and
updated in place or appended to.  `none` is the `ZeroDivisionError` of
`hash_function` (or an out-of-range index, impossible when the table length
is `size`).
-/
def add_symbol {V : Type} (hf : String → Int) (t : HashSymbolTable V) (name : String)
    (value : V) : Option (HashSymbolTable V) :=
  match t.hash_function hf name with
  | none => none
  | some index =>
    match t.table[index]? with
    | none => none
    | some none => some ⟨t.size, t.table.set index (some [(name, value)])⟩
    | some (some []) => some ⟨t.size, t.table.set index (some [(name, value)])⟩
    | some (some (b :: bs)) =>
      some ⟨t.size, t.table.set index (some (updateBucket (b :: bs) name value))⟩

/--
`get_symbol`: hash to a bucket; a falsy bucket means the scan loop is
skipped and Python returns `None` (an inner `none` here); otherwise the
first matching pair's value is returned.  The outer `Option` is the
`ZeroDivisionError`/`IndexError` path, as in `add_symbol`.
-/
def get_symbol {V : Type} (hf : String → Int) (t : HashSymbolTable V) (name : String) :
    Option (Option V) :=
  match t.hash_function hf name with
  | none => none
  | some index =>
    match t.table[index]? with
    | none => none
    | some none => some none
    | some (some bucket) => some (lookupFirst bucket name)

end HashSymbolTable

/-! ## Lemmas about the scanner -/

namespace Lexer

/-- Progress of the pattern loop: a successful match at the cursor matches a
non-empty span that is a prefix of the remaining input, so the cursor
strictly advances. -/
theorem matchAt_spec {cs : List Char} {k : String} {txt rest' : List Char}
    (h : matchAt cs = some (k, txt, rest')) :
    txt ≠ [] ∧ txt ++ rest' = cs ∧ rest'.length < cs.length := by
  match cs with
  | [] => simp [matchAt] at h
  | c :: rest =>
    rw [matchAt] at h
    split at h
    · simp only [Option.some.injEq, Prod.mk.injEq] at h
      obtain ⟨rfl, rfl, rfl⟩ := h
      refine ⟨List.cons_ne_nil _ _, ?_, ?_⟩
      · simp [List.takeWhile_append_dropWhile]
      · exact Nat.lt_succ_of_le ((List.dropWhile_sublist _).length_le)
    · split at h
      · simp only [Option.some.injEq, Prod.mk.injEq] at h
        obtain ⟨rfl, rfl, rfl⟩ := h
        refine ⟨List.cons_ne_nil _ _, ?_, ?_⟩
        · simp [List.takeWhile_append_dropWhile]
        · exact Nat.lt_succ_of_le ((List.dropWhile_sublist _).length_le)
      · split at h
        · simp only [Option.some.injEq, Prod.mk.injEq] at h
          obtain ⟨rfl, rfl, rfl⟩ := h
          exact ⟨List.cons_ne_nil _ _, rfl, Nat.lt_succ_self _⟩
        · split at h
          · split at h
            · exact absurd h (by simp)
            · rename_i q rtail heq
              simp only [Option.some.injEq, Prod.mk.injEq] at h
              obtain ⟨rfl, rfl, rfl⟩ := h
              refine ⟨List.cons_ne_nil _ _, ?_, ?_⟩
              · simp only [List.cons_append, List.append_assoc, List.singleton_append,
                  List.nil_append, ← heq, List.takeWhile_append_dropWhile]
              · have hle : (q :: rtail).length ≤ rest.length := by
                  rw [← heq]; exact (List.dropWhile_sublist _).length_le
                simp only [List.length_cons] at hle ⊢
                omega
          · split at h
            · simp only [Option.some.injEq, Prod.mk.injEq] at h
              obtain ⟨rfl, rfl, rfl⟩ := h
              refine ⟨List.cons_ne_nil _ _, ?_, ?_⟩
              · simp [List.takeWhile_append_dropWhile]
              · exact Nat.lt_succ_of_le ((List.dropWhile_sublist _).length_le)
            · exact absurd h (by simp)

/-- With fuel at least the input length, concatenating all matched spans of
the scan loop reconstructs the input. -/
theorem scanAllF_concat :
    ∀ (n : Nat) (cs : List Char), cs.length ≤ n →
      (scanAllF n cs).foldr (fun t acc => t.2 ++ acc) [] = cs := by
  intro n
  induction n with
  | zero =>
    intro cs h
    match cs with
    | [] => rfl
    | _ :: _ => simp at h
  | succ n ih =>
    intro cs h
    match cs with
    | [] => rfl
    | c :: rest =>
      cases hm : matchAt (c :: rest) with
      | some trip =>
        obtain ⟨k, txt, rest'⟩ := trip
        obtain ⟨-, happ, hlen⟩ := matchAt_spec hm
        simp only [scanAllF, hm, List.foldr_cons]
        rw [ih rest' (by simp only [List.length_cons] at h hlen; omega), happ]
      | none =>
        simp only [scanAllF, hm, List.foldr_cons, List.singleton_append]
        rw [ih rest (by simpa using Nat.le_of_succ_le_succ h)]

/-- The token list of the source's `tokenize` is the full span list with the
`COMMENT` spans filtered out (the inline `if token_type != 'COMMENT'`). -/
theorem tokenizeF_filter :
    ∀ (n : Nat) (cs : List Char),
      tokenizeF n cs = (scanAllF n cs).filter (fun t => t.1 != "COMMENT") := by
  intro n
  induction n with
  | zero =>
    intro cs
    match cs with
    | [] => rfl
    | _ :: _ => rfl
  | succ n ih =>
    intro cs
    match cs with
    | [] => rfl
    | c :: rest =>
      cases hm : matchAt (c :: rest) with
      | some trip =>
        obtain ⟨k, txt, rest'⟩ := trip
        by_cases hk : k = "COMMENT" <;>
          simp [tokenizeF, scanAllF, hm, hk, ih, List.filter_cons]
      | none =>
        simp [tokenizeF, scanAllF, hm, ih, List.filter_cons]

end Lexer

/-! ## Lemmas about the symbol tables -/

/-- A first-match scan is unaffected by entries appended behind a hit. -/
theorem lookupFirst_append_of_some {V : Type} {l : List (String × V)} {k : String} {w : V}
    (h : lookupFirst l k = some w) (l₂ : List (String × V)) :
    lookupFirst (l ++ l₂) k = some w := by
  induction l with
  | nil => simp [lookupFirst] at h
  | cons p rest ih =>
    obtain ⟨n, v⟩ := p
    by_cases hn : n = k
    · simpa [lookupFirst, hn] using h
    · rw [lookupFirst, if_neg hn] at h
      rw [List.cons_append, lookupFirst, if_neg hn]
      exact ih h

/-- `dictInsert` of a present key keeps the key sequence unchanged. -/
theorem dictInsert_keys_mem {V : Type} {l : List (String × V)} {k : String} (v : V)
    (h : k ∈ l.map Prod.fst) :
    (dictInsert l k v).map Prod.fst = l.map Prod.fst := by
  induction l with
  | nil => simp at h
  | cons p rest ih =>
    obtain ⟨n, w⟩ := p
    by_cases hn : n = k
    · subst hn; simp [dictInsert]
    · simp only [List.map_cons, List.mem_cons] at h
      rcases h with h | h
      · exact absurd h.symm hn
      · simp [dictInsert, hn, ih h]

/-- `dictInsert` of an absent key appends it at the end of the key sequence. -/
theorem dictInsert_keys_not_mem {V : Type} {l : List (String × V)} {k : String} (v : V)
    (h : k ∉ l.map Prod.fst) :
    (dictInsert l k v).map Prod.fst = l.map Prod.fst ++ [k] := by
  induction l with
  | nil => simp [dictInsert]
  | cons p rest ih =>
    obtain ⟨n, w⟩ := p
    simp only [List.map_cons, List.mem_cons, not_or] at h
    have hne : ¬ n = k := fun hh : n = k => h.1 hh.symm
    simp [dictInsert, hne, ih h.2]

/-- `dictInsert` preserves distinctness of keys. -/
theorem dictInsert_nodup {V : Type} {l : List (String × V)} (k : String) (v : V)
    (h : (l.map Prod.fst).Nodup) :
    ((dictInsert l k v).map Prod.fst).Nodup := by
  by_cases hk : k ∈ l.map Prod.fst
  · rw [dictInsert_keys_mem v hk]; exact h
  · rw [dictInsert_keys_not_mem v hk]
    simp [List.nodup_append, h, hk]

/-- The value stored by `dictInsert` is the one `lookupFirst` finds. -/
theorem dictInsert_lookupFirst {V : Type} (l : List (String × V)) (k : String) (v : V) :
    lookupFirst (dictInsert l k v) k = some v := by
  induction l with
  | nil => simp [dictInsert, lookupFirst]
  | cons p rest ih =>
    obtain ⟨n, w⟩ := p
    by_cases hn : n = k
    · simp [dictInsert, hn, lookupFirst]
    · simp [dictInsert, hn, lookupFirst, ih]

/-- `updateBucket` of a present key keeps the bucket's key sequence. -/
theorem updateBucket_keys_mem {V : Type} {l : List (String × V)} {k : String} (v : V)
    (h : k ∈ l.map Prod.fst) :
    (updateBucket l k v).map Prod.fst = l.map Prod.fst := by
  induction l with
  | nil => simp at h
  | cons p rest ih =>
    obtain ⟨n, w⟩ := p
    by_cases hn : n = k
    · subst hn; simp [updateBucket]
    · simp only [List.map_cons, List.mem_cons] at h
      rcases h with h | h
      · exact absurd h.symm hn
      · simp [updateBucket, hn, ih h]

/-- `updateBucket` of an absent key appends it at the end of the bucket. -/
theorem updateBucket_keys_not_mem {V : Type} {l : List (String × V)} {k : String} (v : V)
    (h : k ∉ l.map Prod.fst) :
    (updateBucket l k v).map Prod.fst = l.map Prod.fst ++ [k] := by
  induction l with
  | nil => simp [updateBucket]
  | cons p rest ih =>
    obtain ⟨n, w⟩ := p
    simp only [List.map_cons, List.mem_cons, not_or] at h
    have hne : ¬ n = k := fun hh : n = k => h.1 hh.symm
    simp [updateBucket, hne, ih h.2]

/-- `updateBucket` preserves distinctness of a bucket's keys. -/
theorem updateBucket_nodup {V : Type} {l : List (String × V)} (k : String) (v : V)
    (h : (l.map Prod.fst).Nodup) :
    ((updateBucket l k v).map Prod.fst).Nodup := by
  by_cases hk : k ∈ l.map Prod.fst
  · rw [updateBucket_keys_mem v hk]; exact h
  · rw [updateBucket_keys_not_mem v hk]
    simp [List.nodup_append, h, hk]

/-- The value stored by `updateBucket` is the one the bucket scan finds. -/
theorem updateBucket_lookupFirst {V : Type} (l : List (String × V)) (k : String) (v : V) :
    lookupFirst (updateBucket l k v) k = some v := by
  induction l with
  | nil => simp [updateBucket, lookupFirst]
  | cons p rest ih =>
    obtain ⟨n, w⟩ := p
    by_cases hn : n = k
    · simp [updateBucket, hn, lookupFirst]
    · simp [updateBucket, hn, lookupFirst, ih]

/-- `strLtChars` is irreflexive. -/
theorem strLtChars_self (l : List Char) : strLtChars l l = false := by
  induction l with
  | nil => rfl
  | cons a as ih => rw [strLtChars, if_neg (lt_irrefl a), if_neg (lt_irrefl a)]; exact ih

/-- Two character lists neither of which is below the other are equal. -/
theorem strLtChars_eq_of_not_lt :
    ∀ {a b : List Char}, strLtChars a b = false → strLtChars b a = false → a = b := by
  intro a
  induction a with
  | nil =>
    intro b h1 _
    cases b with
    | nil => rfl
    | cons y ys => simp [strLtChars] at h1
  | cons x xs ih =>
    intro b h1 h2
    cases b with
    | nil => simp [strLtChars] at h2
    | cons y ys =>
      rw [strLtChars] at h1 h2
      rcases lt_trichotomy x y with hlt | heq | hgt
      · rw [if_pos hlt] at h1; exact absurd h1 (by simp)
      · subst heq
        rw [if_neg (lt_irrefl x), if_neg (lt_irrefl x)] at h1 h2
        rw [ih h1 h2]
      · rw [if_pos hgt] at h2; exact absurd h2 (by simp)

/-- `strLt` is irreflexive: Python's `"x" < "x"` is false. -/
theorem strLt_self (s : String) : strLt s s = false := strLtChars_self s.data

/-- Two strings neither of which is below the other are equal. -/
theorem strLt_eq_of_not_lt {a b : String} (h1 : strLt a b = false)
    (h2 : strLt b a = false) : a = b := by
  obtain ⟨da⟩ := a
  obtain ⟨db⟩ := b
  exact congrArg String.mk (strLtChars_eq_of_not_lt h1 h2)

/-- Inserting a key already present in the tree returns the tree unchanged:
the insert only recurses on strict comparisons and has no `==` branch. -/
theorem Tree.add_of_get_some {V : Type} :
    ∀ {t : Tree V} {k : String} {w : V} (v : V), t.get k = some w → t.add k v = t := by
  intro t
  induction t with
  | nil => intro k w v h; simp [Tree.get] at h
  | node n x l r ihl ihr =>
    intro k w v h
    rw [Tree.get] at h
    by_cases he : k = n
    · rw [Tree.add]
      subst he
      rw [if_neg (by simp [strLt_self]), if_neg (by simp [strLt_self])]
    · rw [if_neg he] at h
      by_cases hlt : strLt k n = true
      · rw [if_pos hlt] at h
        rw [Tree.add, if_pos hlt, ihl v h]
      · rw [if_neg hlt] at h
        have hlt' : strLt k n = false := by simpa using hlt
        have hgt : strLt n k = true := by
          by_contra hq
          have hq' : strLt n k = false := by simpa using hq
          exact he (strLt_eq_of_not_lt hlt' hq')
        rw [Tree.add, if_neg (by simp [hlt']), if_pos hgt, ihr v h]

/-! ## Claim theorems -/

/--
Claim C1: the claim says `Parser.expr` on the tokens of `"2 + 3 * 4"`
returns `BinaryOp(add, Number 2, BinaryOp(mul, Number 3, Number 4))`.  The
code disagrees: the lexer labels every operator with the kind `OPERATOR`,
while `term`/`expr` compare the token *kind* with the characters
`'*'`,`'/'`,`'+'`,`'-'` (and `factor` with `'('`), which never match, so
`expr` returns `('number', '2')` after consuming a single token.  This holds
even for a whitespace-free token sequence (second conjunct).
-/
theorem C1_expr_on_lexed_tokens :
    Parser.expr (lexTokens "2 + 3 * 4") 0 100 = .ok (.number "2", 1)
    ∧ Parser.expr [("NUMBER", "2"), ("OPERATOR", "+"), ("NUMBER", "3"),
        ("OPERATOR", "*"), ("NUMBER", "4")] 0 100 = .ok (.number "2", 1) :=
  ⟨rfl, rfl⟩

/--
Claim C2: the claim says `eat` raises `SyntaxError` both on a wrong token
kind and at end of input, as its sole failure mode.  The code disagrees at
end of input: `current_token` is `None` there and the f-string's
`current_token[0]` raises `TypeError` before the `SyntaxError` is built
(first conjunct).  On a wrong kind a `SyntaxError` naming expected and
actual kinds is raised (second conjunct), and on a match the cursor
advances (third conjunct).
-/
theorem C2_eat_failure_modes :
    Parser.eat ([] : List Token) 0 "NUMBER" = .error .typeError
    ∧ Parser.eat [("OPERATOR", "+")] 0 "NUMBER" = .error (.synError "NUMBER" "OPERATOR")
    ∧ Parser.eat [("NUMBER", "7")] 0 "NUMBER" = .ok 1 :=
  ⟨rfl, rfl, rfl⟩

/--
Claim C3 counterexample: tokenizing `"x = 1 # comment"` does not produce
exactly the three tokens `[Identifier x, Operator =, Number 1]` — the lexer
has no whitespace rule, so each space becomes an `INVALID` token.
-/
theorem C3_counterexample :
    Lexer.tokenize "x = 1 # comment".data ≠
      [("IDENTIFIER", ['x']), ("OPERATOR", ['=']), ("NUMBER", ['1'])] := by
  decide

/--
Claim C3 (amended): tokenizing `"x = 1 # comment"` produces exactly the six
tokens `[Identifier "x", Invalid " ", Operator "=", Invalid " ",
Number "1", Invalid " "]`: every space becomes a one-character `INVALID`
token because no lexical rule matches whitespace, and the comment
`"# comment"` is consumed but contributes no token.
-/
theorem C3_amended :
    Lexer.tokenize "x = 1 # comment".data =
      [("IDENTIFIER", ['x']), ("INVALID", [' ']), ("OPERATOR", ['=']),
       ("INVALID", [' ']), ("NUMBER", ['1']), ("INVALID", [' '])] := by
  decide

/--
Claim C4: for every input text, concatenating, in scan order, the texts of
all matched spans — the emitted tokens plus the spans consumed as comments —
reconstructs the input exactly; and the emitted token list is precisely the
span list with the comment spans removed.
-/
theorem C4_roundtrip (cs : List Char) :
    (Lexer.scanAll cs).foldr (fun t acc => t.2 ++ acc) [] = cs
    ∧ Lexer.tokenize cs = (Lexer.scanAll cs).filter (fun t => t.1 != "COMMENT") :=
  ⟨Lexer.scanAllF_concat cs.length cs le_rfl, Lexer.tokenizeF_filter cs.length cs⟩

/--
Claim C9: the scanner makes progress at every position — a successful rule
match consumes a non-empty prefix (so the cursor strictly advances), and
when no rule matches, one single-character `INVALID` token holding exactly
the character at the cursor is emitted and the cursor advances by one; in
particular `"@"` tokenizes to `[Invalid "@"]`.
-/
theorem C9_scanner_progress :
    (∀ (cs : List Char) (k : String) (txt rest' : List Char),
        Lexer.matchAt cs = some (k, txt, rest') →
          txt ≠ [] ∧ txt ++ rest' = cs ∧ rest'.length < cs.length)
    ∧ (∀ (c : Char) (rest : List Char), Lexer.matchAt (c :: rest) = none →
        Lexer.tokenize (c :: rest) = ("INVALID", [c]) :: Lexer.tokenize rest)
    ∧ Lexer.tokenize "@".data = [("INVALID", ['@'])] := by
  refine ⟨fun cs k txt rest' h => Lexer.matchAt_spec h, fun c rest h => ?_, by decide⟩
  simp only [Lexer.tokenize, List.length_cons, Lexer.tokenizeF, h]

/-- Witness for `C9_scanner_progress`: the match conjunct at the concrete
input `['a']` and the invalid-character conjunct at `['@']`. -/
theorem C9_witness :
    (Lexer.matchAt ['a'] = some ("IDENTIFIER", ['a'], [])
      ∧ (['a'] ≠ ([] : List Char) ∧ ['a'] ++ ([] : List Char) = ['a']
          ∧ ([] : List Char).length < (['a'] : List Char).length))
    ∧ (Lexer.matchAt ['@'] = none
      ∧ Lexer.tokenize ['@'] = ("INVALID", ['@']) :: Lexer.tokenize []) :=
  ⟨⟨by decide, C9_scanner_progress.1 ['a'] "IDENTIFIER" ['a'] [] (by decide)⟩,
   ⟨by decide, C9_scanner_progress.2.1 '@' [] (by decide)⟩⟩

/--
Claim C5 counterexample: the claim's per-variant uniqueness/upsert invariant
fails for `OrderedSymbolTable`: after `insert("x",1); insert("x",2)` the
backing list holds two entries with the same key — the second insert
appended a duplicate instead of overwriting.
-/
theorem C5_counterexample :
    (OrderedSymbolTable.add_symbol
        (OrderedSymbolTable.add_symbol ⟨[]⟩ "x" (1 : Nat)) "x" 2).symbols
      = [("x", 1), ("x", 2)]
    ∧ ¬ ((OrderedSymbolTable.add_symbol
        (OrderedSymbolTable.add_symbol ⟨[]⟩ "x" (1 : Nat)) "x" 2).symbols.map
          Prod.fst).Nodup := by
  exact ⟨rfl, by decide⟩

/--
Claim C5 (amended): upsert-with-unique-keys holds only for the Unordered and
Hash variants: a `dict` assignment and the bucket-update loop both keep keys
distinct and store the new value for the inserted key.  The Ordered variant
instead always appends (duplicate keys accumulate), and the Tree variant
leaves the table entirely unchanged when the inserted key already exists.
-/
theorem C5_amended :
    (∀ (V : Type) (l : List (String × V)) (k : String) (v : V),
        ((l.map Prod.fst).Nodup → ((dictInsert l k v).map Prod.fst).Nodup)
        ∧ lookupFirst (dictInsert l k v) k = some v)
    ∧ (∀ (V : Type) (l : List (String × V)) (k : String) (v : V),
        ((l.map Prod.fst).Nodup → ((updateBucket l k v).map Prod.fst).Nodup)
        ∧ lookupFirst (updateBucket l k v) k = some v)
    ∧ (∀ (V : Type) (t : OrderedSymbolTable V) (k : String) (v : V),
        (t.add_symbol k v).symbols = t.symbols ++ [(k, v)])
    ∧ (∀ (V : Type) (t : Tree V) (k : String) (w v : V),
        t.get k = some w → t.add k v = t) :=
  ⟨fun _ l k v => ⟨dictInsert_nodup k v, dictInsert_lookupFirst l k v⟩,
   fun _ l k v => ⟨updateBucket_nodup k v, updateBucket_lookupFirst l k v⟩,
   fun _ _ _ _ => rfl,
   fun _ _ _ _ v h => Tree.add_of_get_some v h⟩

/-- Witness for `C5_amended`: the dict-nodup conjunct and the tree-unchanged
conjunct applied at concrete inputs. -/
theorem C5_witness :
    (([("y", (1 : Nat))].map Prod.fst).Nodup
      ∧ ((dictInsert [("y", (1 : Nat))] "y" 2).map Prod.fst).Nodup)
    ∧ (Tree.get (.node "x" (1 : Nat) .nil .nil) "x" = some 1
      ∧ Tree.add (.node "x" (1 : Nat) .nil .nil) "x" 2 = .node "x" 1 .nil .nil) :=
  ⟨⟨by decide, (C5_amended.1 Nat [("y", 1)] "y" 2).1 (by decide)⟩,
   ⟨by decide, C5_amended.2.2.2 Nat (.node "x" 1 .nil .nil) "x" 1 2 (by decide)⟩⟩

/--
Claim C6: for `OrderedSymbolTable`, `insert("x",1); insert("x",2);
lookup("x")` returns `1`; in general `add_symbol` always appends and
`get_symbol` returns the first match in scan order, so a later
duplicate-key insert never changes the value `get_symbol` returns
(first-write-wins).
-/
theorem C6_ordered_first_write_wins :
    (OrderedSymbolTable.add_symbol
        (OrderedSymbolTable.add_symbol ⟨[]⟩ "x" (1 : Nat)) "x" 2).get_symbol "x" = some 1
    ∧ (∀ (V : Type) (t : OrderedSymbolTable V) (k : String) (v : V),
        (t.add_symbol k v).symbols = t.symbols ++ [(k, v)])
    ∧ (∀ (V : Type) (t : OrderedSymbolTable V) (k : String) (w v : V),
        t.get_symbol k = some w → (t.add_symbol k v).get_symbol k = some w) :=
  ⟨rfl, fun _ _ _ _ => rfl, fun _ _ _ _ _ h => lookupFirst_append_of_some h _⟩

/-- Witness for `C6_ordered_first_write_wins`: the stability conjunct at a
concrete table already containing `"x"`. -/
theorem C6_witness :
    ((⟨[("x", (5 : Nat))]⟩ : OrderedSymbolTable Nat).get_symbol "x" = some 5)
    ∧ ((⟨[("x", (5 : Nat))]⟩ : OrderedSymbolTable Nat).add_symbol "x" 9).get_symbol "x"
      = some 5 :=
  ⟨by decide, C6_ordered_first_write_wins.2.2 Nat ⟨[("x", 5)]⟩ "x" 5 9 (by decide)⟩

/--
Claim C7: for `UnorderedSymbolTable` and for `HashSymbolTable` with at
least one bucket (and any deterministic hash), `insert("x",1);
insert("x",2); lookup("x")` returns `2` — last-write-wins, unlike the
Ordered variant.
-/
theorem C7_last_write_wins (size : Nat) (hf : String → Int) (h : 1 ≤ size) :
    (UnorderedSymbolTable.add_symbol
        (UnorderedSymbolTable.add_symbol ⟨[]⟩ "x" (1 : Nat)) "x" 2).get_symbol "x" = some 2
    ∧ (((HashSymbolTable.ofSize size : HashSymbolTable Nat).add_symbol hf "x" 1).bind
        (fun t1 => t1.add_symbol hf "x" 2)).bind
        (fun t2 => t2.get_symbol hf "x") = some (some 2) := by
  have hsz : ¬ size = 0 := by omega
  refine ⟨rfl, ?_⟩
  set i : Nat := (hf "x" % (size : Int)).toNat with hidef
  have hilt : i < size := by
    have h1 : 0 ≤ hf "x" % (size : Int) := Int.emod_nonneg _ (by exact_mod_cast hsz)
    have h2 : hf "x" % (size : Int) < (size : Int) :=
      Int.emod_lt_of_pos _ (by exact_mod_cast Nat.pos_of_ne_zero hsz)
    omega
  have hh0 : (⟨size, List.replicate size none⟩ : HashSymbolTable Nat).hash_function hf "x"
      = some i := by
    simp [HashSymbolTable.hash_function, hsz]
  have hb0 : (List.replicate size none :
      List (Option (List (String × Nat))))[i]? = some none := by
    simp [List.getElem?_replicate, hilt]
  have e1 : (⟨size, List.replicate size none⟩ : HashSymbolTable Nat).add_symbol hf "x" 1
      = some ⟨size, (List.replicate size none).set i (some [("x", 1)])⟩ := by
    simp only [HashSymbolTable.add_symbol, hh0, hb0]
  have hh1 : (⟨size, (List.replicate size none).set i
        (some [("x", (1 : Nat))])⟩ : HashSymbolTable Nat).hash_function hf "x" = some i := by
    simp [HashSymbolTable.hash_function, hsz]
  have hb1 : ((List.replicate size none).set i (some [("x", (1 : Nat))]))[i]?
      = some (some [("x", 1)]) := by
    rw [List.getElem?_set_self]
    simpa using hilt
  have e2 : (⟨size, (List.replicate size none).set i
        (some [("x", (1 : Nat))])⟩ : HashSymbolTable Nat).add_symbol hf "x" 2
      = some ⟨size, ((List.replicate size none).set i (some [("x", 1)])).set i
          (some [("x", 2)])⟩ := by
    simp only [HashSymbolTable.add_symbol, hh1, hb1]
    rfl
  have hh2 : (⟨size, ((List.replicate size none).set i
        (some [("x", (1 : Nat))])).set i
        (some [("x", 2)])⟩ : HashSymbolTable Nat).hash_function hf "x" = some i := by
    simp [HashSymbolTable.hash_function, hsz]
  have hb2 : (((List.replicate size none).set i
        (some [("x", (1 : Nat))])).set i (some [("x", 2)]))[i]?
      = some (some [("x", 2)]) := by
    rw [List.getElem?_set_self]
    simpa using hilt
  have e3 : (⟨size, ((List.replicate size none).set i
        (some [("x", (1 : Nat))])).set i
        (some [("x", 2)])⟩ : HashSymbolTable Nat).get_symbol hf "x" = some (some 2) := by
    simp only [HashSymbolTable.get_symbol, hh2, hb2]
    rfl
  show ((HashSymbolTable.add_symbol hf ⟨size, List.replicate size none⟩ "x" 1).bind
      (fun t1 => t1.add_symbol hf "x" 2)).bind (fun t2 => t2.get_symbol hf "x")
    = some (some 2)
  rw [e1, Option.some_bind, e2, Option.some_bind, e3]

/-- Witness for `C7_last_write_wins`: two buckets and a constant hash. -/
theorem C7_witness :
    1 ≤ 2
    ∧ (((HashSymbolTable.ofSize 2 : HashSymbolTable Nat).add_symbol (fun _ => 5) "x" 1).bind
        (fun t1 => t1.add_symbol (fun _ => 5) "x" 2)).bind
        (fun t2 => t2.get_symbol (fun _ => 5) "x") = some (some 2) :=
  ⟨by decide, (C7_last_write_wins 2 (fun _ => 5) (by decide)).2⟩

/--
Claim C8: for `TreeStructuredSymbolTable`, `insert("x",1); insert("x",2);
lookup("x")` returns `1`; in general inserting a key the tree already
contains returns the tree unchanged — neither overwritten nor duplicated —
because the insert recurses only on strict comparisons.
-/
theorem C8_tree_equal_key_ignored :
    (TreeStructuredSymbolTable.add_symbol
        (TreeStructuredSymbolTable.add_symbol ⟨.nil⟩ "x" (1 : Nat)) "x" 2).get_symbol "x"
      = some 1
    ∧ (∀ (V : Type) (t : TreeStructuredSymbolTable V) (k : String) (w v : V),
        t.get_symbol k = some w → t.add_symbol k v = t) := by
  refine ⟨by decide, fun V t k w v h => ?_⟩
  cases t with
  | mk root => exact congrArg TreeStructuredSymbolTable.mk (Tree.add_of_get_some v h)

/-- Witness for `C8_tree_equal_key_ignored`: a one-node tree containing
`"x"`. -/
theorem C8_witness :
    ((⟨.node "x" (1 : Nat) .nil .nil⟩ : TreeStructuredSymbolTable Nat).get_symbol "x"
      = some 1)
    ∧ (⟨.node "x" (1 : Nat) .nil .nil⟩ : TreeStructuredSymbolTable Nat).add_symbol "x" 2
      = ⟨.node "x" 1 .nil .nil⟩ :=
  ⟨by decide, C8_tree_equal_key_ignored.2 Nat ⟨.node "x" 1 .nil .nil⟩ "x" 1 2 (by decide)⟩

/--
Claim C10: for a `HashSymbolTable` whose bucket array has its declared
size, a bucket count of at least 1 makes `hash_function` return a valid
index below `size` and makes `add_symbol`/`get_symbol` total, while a
table constructed with size 0 fails (Python's `ZeroDivisionError` from
`hash(key) % 0`) on every insert and lookup.
-/
theorem C10_hash_size_precondition (V : Type) (hf : String → Int)
    (t : HashSymbolTable V) (k : String) (v : V)
    (hlen : t.table.length = t.size) :
    (1 ≤ t.size →
      (∃ i, t.hash_function hf k = some i ∧ i < t.size)
      ∧ (t.add_symbol hf k v).isSome ∧ (t.get_symbol hf k).isSome)
    ∧ (t.size = 0 →
      t.hash_function hf k = none
      ∧ t.add_symbol hf k v = none ∧ t.get_symbol hf k = none) := by
  constructor
  · intro hpos
    have hsz : ¬ t.size = 0 := by omega
    have hhash : t.hash_function hf k = some ((hf k % (t.size : Int)).toNat) := by
      simp [HashSymbolTable.hash_function, hsz]
    have hilt : (hf k % (t.size : Int)).toNat < t.size := by
      have h1 : 0 ≤ hf k % (t.size : Int) := Int.emod_nonneg _ (by exact_mod_cast hsz)
      have h2 : hf k % (t.size : Int) < (t.size : Int) :=
        Int.emod_lt_of_pos _ (by exact_mod_cast Nat.pos_of_ne_zero hsz)
      omega
    have hlt' : (hf k % (t.size : Int)).toNat < t.table.length := by omega
    obtain ⟨bucket, hb⟩ : ∃ b, t.table[(hf k % (t.size : Int)).toNat]? = some b :=
      ⟨t.table[(hf k % (t.size : Int)).toNat], List.getElem?_eq_getElem hlt'⟩
    refine ⟨⟨_, hhash, hilt⟩, ?_, ?_⟩
    · rcases bucket with _ | (_ | ⟨p, ps⟩) <;>
        simp [HashSymbolTable.add_symbol, hhash, hb]
    · rcases bucket with _ | (_ | ⟨p, ps⟩) <;>
        simp [HashSymbolTable.get_symbol, hhash, hb]
  · intro hzero
    have hhash : t.hash_function hf k = none := by
      simp [HashSymbolTable.hash_function, hzero]
    exact ⟨hhash, by simp [HashSymbolTable.add_symbol, hhash],
      by simp [HashSymbolTable.get_symbol, hhash]⟩

/-- Witness for `C10_hash_size_precondition`: a freshly constructed
two-bucket table with a constant hash. -/
theorem C10_witness :
    ((HashSymbolTable.ofSize 2 : HashSymbolTable Nat).table.length
      = (HashSymbolTable.ofSize 2 : HashSymbolTable Nat).size)
    ∧ ((1 ≤ (HashSymbolTable.ofSize 2 : HashSymbolTable Nat).size →
        (∃ i, (HashSymbolTable.ofSize 2 : HashSymbolTable Nat).hash_function (fun _ => 3) "x"
            = some i ∧ i < (HashSymbolTable.ofSize 2 : HashSymbolTable Nat).size)
        ∧ ((HashSymbolTable.ofSize 2 : HashSymbolTable Nat).add_symbol
            (fun _ => 3) "x" 7).isSome
        ∧ ((HashSymbolTable.ofSize 2 : HashSymbolTable Nat).get_symbol
            (fun _ => 3) "x").isSome)
      ∧ ((HashSymbolTable.ofSize 2 : HashSymbolTable Nat).size = 0 →
        (HashSymbolTable.ofSize 2 : HashSymbolTable Nat).hash_function (fun _ => 3) "x" = none
        ∧ (HashSymbolTable.ofSize 2 : HashSymbolTable Nat).add_symbol (fun _ => 3) "x" 7 = none
        ∧ (HashSymbolTable.ofSize 2 : HashSymbolTable Nat).get_symbol (fun _ => 3) "x"
          = none)) :=
  ⟨by decide, C10_hash_size_precondition Nat (fun _ => 3) (HashSymbolTable.ofSize 2) "x" 7
    (by decide)⟩

end PySC
